import Mathlib

/-!
# Verification of the `task-hookrs` task cache (`src/cache.rs`, `src/error.rs`)

A shallow embedding of the cache module. Rust's `HashMap<Uuid, RefCell<(Task,
MutationState)>>` is modelled as an association list with replacing insertion
(matching `HashMap::extend` semantics); each `RefCell`'s runtime borrow flag is
modelled explicitly on the entry. The external primitives `query` and `save`
are modelled as an environment of fallible functions, and every cache
operation additionally returns the list of external calls it issued, so that
"no external call is made" is a statement about the returned trace.
-/

namespace TaskHookrs

/-- Mutation tag on a cached task, from `enum MutationState` in `cache.rs`. -/
inductive MutationState where
  | Dirty
  | Clean
deriving DecidableEq, Repr

/-- Modelled from the spec: `TaskStatus` is an external enumeration of
lifecycle states; its definition is not under `src/`. At minimum `Completed`
and `Deleted` are referenced by name; `Pending` and `Waiting` stand in for
the other states. -/
inductive TaskStatus where
  | Pending
  | Completed
  | Deleted
  | Waiting
deriving DecidableEq, Repr

/-- Modelled from the spec: the textual status name used by the external
status type's display implementation, one name per lifecycle state. -/
def TaskStatus.display : TaskStatus → String
  | .Pending => "pending"
  | .Completed => "completed"
  | .Deleted => "deleted"
  | .Waiting => "waiting"

/-- Modelled from the spec: `Task` is an opaque external record; the system
only requires that a stable unique identifier (UUID, modelled as `Nat`) can
be read from it.  `status` and `payload` stand for the fields this system
never inspects. -/
structure Task where
  uuid : Nat
  status : TaskStatus
  payload : Nat
deriving DecidableEq, Repr

/-- The error kinds of `src/error.rs` (`error_chain!` block). -/
inductive ErrorKind where
  | ParserError
  | ReaderError
  | TaskCmdError
  | SerializeError
  | CacheMissError
  | DirtyCacheError
deriving DecidableEq, Repr

/-- The runtime borrow flag of a `RefCell`: free, shared by `n + 1` readers,
or exclusively (mutably) borrowed. -/
inductive BorrowFlag where
  | free
  | shared (n : Nat)
  | mutBorrowed
deriving DecidableEq, Repr

/-- One cache slot: the `RefCell<(Task, MutationState)>` of `cache.rs`,
with its runtime borrow flag made explicit. -/
structure Entry where
  task : Task
  state : MutationState
  flag : BorrowFlag
deriving DecidableEq, Repr

/-- Replacing insertion into an association list: the semantics of
`HashMap::extend` with a single pair (insert or replace by key). -/
def insertEntry (k : Nat) (e : Entry) : List (Nat × Entry) → List (Nat × Entry)
  | [] => [(k, e)]
  | p :: rest =>
    if k = p.1 then (k, e) :: rest else p :: insertEntry k e rest

/-- `HashMap::extend` over a sequence of pairs: later pairs replace earlier
ones with the same key. -/
def extendEntries (m : List (Nat × Entry)) : List (Nat × Entry) → List (Nat × Entry)
  | [] => m
  | p :: ps => extendEntries (insertEntry p.1 p.2 m) ps

/-- The `TaskCache` struct of `cache.rs`: the map from UUID to cached entry,
and the ordered ignore list. -/
structure TaskCache where
  cache : List (Nat × Entry)
  ignore : List TaskStatus
deriving DecidableEq, Repr

/-- An external call issued by a cache operation: a `query` with a filter
string, or a `save` of a batch of tasks. -/
inductive ExtCall where
  | queryCall (filter : String)
  | saveCall (tasks : List Task)
deriving DecidableEq, Repr

/-- The external boundary: the `query` and `save` primitives of the `tw`
module (external to this repository). -/
structure Env where
  query : String → Except ErrorKind (List Task)
  save : List Task → Except ErrorKind Unit

/-- Rust's `str::to_uppercase` on the ASCII status names: upper-case every
character. (Modelled directly as a character map so that it reduces in the
kernel; on the ASCII strings involved this agrees with Rust.) -/
def rustToUppercase (s : String) : String :=
  ⟨s.data.map Char.toUpper⟩

/-- `generate_query` from `cache.rs`: one term `format!("-{}", x)` per
ignored status, upper-cased, joined by single spaces. -/
def generate_query (ignore : List TaskStatus) : String :=
  String.intercalate " " (ignore.map (fun x => rustToUppercase ("-" ++ x.display)))

/-- `task_to_entry` from `cache.rs`: key the task by its UUID and store it
as a clean, unborrowed entry. -/
def task_to_entry (task : Task) : Nat × Entry :=
  (task.uuid, ⟨task, MutationState.Clean, BorrowFlag.free⟩)

/-- `TaskCache::new`. -/
def TaskCache.new (ignore : List TaskStatus) : TaskCache :=
  ⟨[], ignore⟩

/-- `Default::default` for `TaskCache`. -/
def TaskCache.defaultCache : TaskCache :=
  TaskCache.new [TaskStatus.Completed, TaskStatus.Deleted]

/-- The dirty-cache test performed at the top of `TaskCache::load`. -/
def anyDirty (c : TaskCache) : Bool :=
  c.cache.any (fun p => p.2.state == MutationState.Dirty)

/-- `TaskCache::load`: fail with `DirtyCacheError` if any entry is dirty;
otherwise clear the cache, issue the query, and extend the (now empty) map
with one clean entry per returned task. Note the clear happens before the
query, so a failed query leaves the cache cleared. -/
def TaskCache.load (c : TaskCache) (env : Env) :
    Except ErrorKind Unit × TaskCache × List ExtCall :=
  if anyDirty c then
    (Except.error ErrorKind.DirtyCacheError, c, [])
  else
    let cleared : TaskCache := { c with cache := [] }
    let q := generate_query c.ignore
    match env.query q with
    | Except.error e => (Except.error e, cleared, [ExtCall.queryCall q])
    | Except.ok tasks =>
      (Except.ok (),
        { cleared with cache := extendEntries cleared.cache (tasks.map task_to_entry) },
        [ExtCall.queryCall q])

/-- `TaskCache::reset`: unconditionally clear the map. -/
def TaskCache.reset (c : TaskCache) : TaskCache :=
  { c with cache := [] }

/-- The batch collected by `TaskCache::write`: the tasks of all entries
currently marked dirty. -/
def dirtyTasks (c : TaskCache) : List Task :=
  (c.cache.filter (fun p => p.2.state == MutationState.Dirty)).map (fun p => p.2.task)

/-- `TaskCache::write`: collect the dirty entries; if none, succeed with no
external call; otherwise issue one `save` of the batch. The map (and in
particular every mutation tag) is returned unchanged in every case — the
source never writes to the entries here. -/
def TaskCache.write (c : TaskCache) (env : Env) :
    Except ErrorKind Unit × TaskCache × List ExtCall :=
  let updates := dirtyTasks c
  if updates.isEmpty then
    (Except.ok (), c, [])
  else
    match env.save updates with
    | Except.error e => (Except.error e, c, [ExtCall.saveCall updates])
    | Except.ok _ => (Except.ok (), c, [ExtCall.saveCall updates])

/-- `TaskCache::refresh`: `self.write().and_then(|_| self.load())`. -/
def TaskCache.refresh (c : TaskCache) (env : Env) :
    Except ErrorKind Unit × TaskCache × List ExtCall :=
  match c.write env with
  | (Except.error e, c₁, tr) => (Except.error e, c₁, tr)
  | (Except.ok _, c₁, tr) =>
    match c₁.load env with
    | (r, c₂, tr₁) => (r, c₂, tr ++ tr₁)

/-- `TaskCache::set`: insert-or-replace the entry produced by
`task_to_entry` (via `HashMap::extend` with a singleton iterator). -/
def TaskCache.set (c : TaskCache) (task : Task) : TaskCache :=
  { c with cache := extendEntries c.cache [task_to_entry task] }

/-- `TaskCache::iter`, modelled in state-passing style: yields one cell per
entry and, being a `&self` method, returns the cache unchanged. -/
def TaskCache.iter (c : TaskCache) : List (Nat × Entry) × TaskCache :=
  (c.cache, c)

/-- `TaskCache::get_ptr`, modelled in state-passing style: the optional cell
for a UUID; a `&self` method, so the cache is returned unchanged. -/
def TaskCache.get_ptr (c : TaskCache) (uuid : Nat) : Option Entry × TaskCache :=
  ((c.cache.find? (fun p => p.1 == uuid)).map Prod.snd, c)

/-- `TaskCache::ignore` accessor, modelled in state-passing style: a `&self`
method returning the configured ignore list with the cache unchanged. -/
def TaskCache.ignoreAccessor (c : TaskCache) : List TaskStatus × TaskCache :=
  (c.ignore, c)

namespace TaskCell

/-- `TaskCell::borrow`: `try_borrow` succeeds unless a mutable borrow is
active, mapping the guard down to the task; on success one more shared
borrow is recorded on the flag. Returns `none` on conflict, never an error. -/
def borrow (e : Entry) : Option Task × Entry :=
  match e.flag with
  | BorrowFlag.mutBorrowed => (none, e)
  | BorrowFlag.free => (some e.task, { e with flag := BorrowFlag.shared 0 })
  | BorrowFlag.shared n => (some e.task, { e with flag := BorrowFlag.shared (n + 1) })

/-- `TaskCell::borrow_mut`: `try_borrow_mut` succeeds only when no borrow is
active; on success the entry's mutation tag is set to `Dirty` before the
handle is handed out. Returns `none` on conflict, never an error. -/
def borrow_mut (e : Entry) : Option Task × Entry :=
  match e.flag with
  | BorrowFlag.free =>
    (some e.task, { e with flag := BorrowFlag.mutBorrowed, state := MutationState.Dirty })
  | _ => (none, e)

/-- Dropping a `Ref` handle: one shared borrow is released. -/
def releaseShared (e : Entry) : Entry :=
  match e.flag with
  | BorrowFlag.shared 0 => { e with flag := BorrowFlag.free }
  | BorrowFlag.shared (n + 1) => { e with flag := BorrowFlag.shared n }
  | f => { e with flag := f }

/-- Dropping a `RefMut` handle: the exclusive borrow is released. The task
and the mutation tag are whatever the holder left them as. -/
def releaseMut (e : Entry) : Entry :=
  match e.flag with
  | BorrowFlag.mutBorrowed => { e with flag := BorrowFlag.free }
  | f => { e with flag := f }

end TaskCell

/-- The key invariant on the raw map: every key equals the UUID of the task
stored under it. -/
def keyInvList (m : List (Nat × Entry)) : Prop :=
  ∀ p ∈ m, p.2.task.uuid = p.1

/-- The cache invariant: every identifier used as a map key equals the
identifier of the Task stored at that key. -/
def keyInv (c : TaskCache) : Prop :=
  keyInvList c.cache

/-- A concrete task used as test input. -/
def t1 : Task :=
  ⟨1, TaskStatus.Pending, 0⟩

/-- An environment whose external primitives always succeed (the query
returns no tasks). -/
def envAllOk : Env :=
  ⟨fun _ => Except.ok [], fun _ => Except.ok ()⟩

/-- An environment whose query primitive always fails with `TaskCmdError`. -/
def envQueryFails : Env :=
  ⟨fun _ => Except.error ErrorKind.TaskCmdError, fun _ => Except.ok ()⟩

/-- An environment whose save primitive always fails with `TaskCmdError`. -/
def envSaveFails : Env :=
  ⟨fun _ => Except.ok [], fun _ => Except.error ErrorKind.TaskCmdError⟩

/-- A concrete cache holding the single task `t1` as a dirty entry. -/
def dirtyCache1 : TaskCache :=
  ⟨[(1, ⟨t1, MutationState.Dirty, BorrowFlag.free⟩)], []⟩

/-- A concrete cache holding the single task `t1` as a clean entry. -/
def cleanCache1 : TaskCache :=
  ⟨[(1, ⟨t1, MutationState.Clean, BorrowFlag.free⟩)], []⟩

theorem mem_insertEntry {k : Nat} {e : Entry} {m : List (Nat × Entry)} {p : Nat × Entry}
    (h : p ∈ insertEntry k e m) : p = (k, e) ∨ p ∈ m := by
  induction m with
  | nil => simpa [insertEntry] using h
  | cons q rest ih =>
    simp only [insertEntry] at h
    by_cases hk : k = q.1
    · simp [hk] at h
      rcases h with h | h
      · exact Or.inl (by simp [h, hk])
      · exact Or.inr (List.mem_cons_of_mem q h)
    · simp [hk] at h
      rcases h with h | h
      · exact Or.inr (by simp [h])
      · rcases ih h with h₁ | h₁
        · exact Or.inl h₁
        · exact Or.inr (List.mem_cons_of_mem q h₁)

theorem mem_extendEntries {m l : List (Nat × Entry)} {p : Nat × Entry}
    (h : p ∈ extendEntries m l) : p ∈ m ∨ p ∈ l := by
  induction l generalizing m with
  | nil => exact Or.inl h
  | cons q rest ih =>
    rcases ih h with h₁ | h₁
    · rcases mem_insertEntry h₁ with h₂ | h₂
      · exact Or.inr (by simp [h₂])
      · exact Or.inl h₂
    · exact Or.inr (List.mem_cons_of_mem q h₁)

theorem keyInvList_map_task_to_entry (ts : List Task) :
    keyInvList (ts.map task_to_entry) := by
  intro p hp
  simp only [List.mem_map] at hp
  obtain ⟨t, _, rfl⟩ := hp
  rfl

theorem keyInvList_extendEntries {m l : List (Nat × Entry)}
    (hm : keyInvList m) (hl : keyInvList l) : keyInvList (extendEntries m l) :=
  fun p hp => (mem_extendEntries hp).elim (hm p) (hl p)

theorem write_cache_unchanged (c : TaskCache) (env : Env) :
    (c.write env).2.1 = c := by
  unfold TaskCache.write
  by_cases h : (dirtyTasks c).isEmpty
  · simp [h]
  · cases hs : env.save (dirtyTasks c) <;> simp [h, hs]

theorem write_trace_no_query (c : TaskCache) (env : Env) (f : String) :
    ExtCall.queryCall f ∉ (c.write env).2.2 := by
  unfold TaskCache.write
  by_cases h : (dirtyTasks c).isEmpty
  · simp [h]
  · cases hs : env.save (dirtyTasks c) <;> simp [h, hs]

/-- **C1** — The claim says `Set(task)` inserts or replaces the entry for the
task's identifier **and marks it dirty**, so it is persisted by the next
Write. The code stores the entry via `task_to_entry`, which tags it `Clean`
(contradicting `set`'s own doc comment "It will be marked as dirty and saved
on the next `write()`"): after `set`, the entry is Clean and the next `write`
issues no external call at all. This theorem evaluates the code at the
failing input. -/
theorem set_stores_clean_entry_bug :
    ((TaskCache.new []).set t1).cache
      = [(1, ⟨t1, MutationState.Clean, BorrowFlag.free⟩)] ∧
    (((TaskCache.new []).set t1).write envAllOk).1 = Except.ok () ∧
    (((TaskCache.new []).set t1).write envAllOk).2.2 = [] := by
  refine ⟨rfl, rfl, rfl⟩

/-- **C2** — The claim says a successful Write persists exactly the dirty
entries in one batch call **and then clears all dirty marks**, so a second
Write issues no external call. The code never clears the mutation tags: on
the cache holding one dirty task, the first Write issues the batch and
succeeds, but the entry stays Dirty, so the second Write issues the same
external save again. This theorem evaluates the code at the failing input. -/
theorem write_does_not_clear_dirty_bug :
    (dirtyCache1.write envAllOk).1 = Except.ok () ∧
    (dirtyCache1.write envAllOk).2.2 = [ExtCall.saveCall [t1]] ∧
    (dirtyCache1.write envAllOk).2.1 = dirtyCache1 ∧
    (((dirtyCache1.write envAllOk).2.1).write envAllOk).2.2
      = [ExtCall.saveCall [t1]] := by
  refine ⟨rfl, rfl, rfl, rfl⟩

/-- **C4** — For every cache containing at least one dirty entry, Load fails
with `DirtyCacheError`, issues no external call (the trace is empty), and
returns the cache exactly unchanged (including the dirty entry and every
mutation mark). -/
theorem load_dirty_guard (c : TaskCache) (env : Env) (h : anyDirty c = true) :
    c.load env = (Except.error ErrorKind.DirtyCacheError, c, []) := by
  simp [TaskCache.load, h]

/-- Witness for `load_dirty_guard` at a concrete dirty cache. -/
theorem load_dirty_guard_witness :
    dirtyCache1.load envAllOk = (Except.error ErrorKind.DirtyCacheError, dirtyCache1, []) :=
  load_dirty_guard dirtyCache1 envAllOk (by decide)

/-- **C5** — For every ignore list, the generated query string is the
space-joined sequence of terms, one per status in order, each term being the
status's upper-cased textual name prefixed with a single `-`; in particular
`[Completed, Deleted]` yields `"-COMPLETED -DELETED"` and `[]` yields `""`. -/
theorem generate_query_correct (l : List TaskStatus) :
    generate_query l
      = String.intercalate " " (l.map (fun s => "-" ++ rustToUppercase s.display)) ∧
    generate_query [TaskStatus.Completed, TaskStatus.Deleted] = "-COMPLETED -DELETED" ∧
    generate_query [] = "" := by
  refine ⟨?_, by decide, rfl⟩
  have hfun : (fun x : TaskStatus => rustToUppercase ("-" ++ x.display))
      = fun s : TaskStatus => "-" ++ rustToUppercase s.display := by
    funext s
    cases s <;> decide
  rw [generate_query, hfun]

/-- **C3 counterexample** — The claim says that on a cache with no dirty
entries, a Load that fails (here: the external query fails) leaves the prior
contents unchanged. On the cache holding one clean entry and an environment
whose query fails, Load fails but the resulting cache is empty, not the prior
one: `load` clears the map before issuing the query. -/
theorem load_failure_clears_cache_cex :
    (cleanCache1.load envQueryFails).1 = Except.error ErrorKind.TaskCmdError ∧
    (cleanCache1.load envQueryFails).2.1 ≠ cleanCache1 ∧
    (cleanCache1.load envQueryFails).2.1.cache = [] := by
  refine ⟨rfl, by decide, rfl⟩

/-- **C3 amended** — For every cache with no dirty entries, if the external
query fails then Load fails with that same error and leaves the cache
*cleared* (the prior contents are discarded, not preserved); and Write (in
particular a failed Write) leaves the whole cache, hence every dirty mark,
unchanged. -/
theorem load_query_failure_clears (c : TaskCache) (env : Env) (e : ErrorKind)
    (hd : anyDirty c = false)
    (hq : env.query (generate_query c.ignore) = Except.error e) :
    (c.load env).1 = Except.error e ∧
    (c.load env).2.1 = { c with cache := [] } ∧
    ∀ env₁ : Env, (c.write env₁).2.1 = c := by
  refine ⟨?_, ?_, fun env₁ => write_cache_unchanged c env₁⟩ <;>
    simp [TaskCache.load, hd, hq]

/-- Witness for `load_query_failure_clears` at a concrete clean cache and a
failing query environment. -/
theorem load_query_failure_clears_witness :
    (cleanCache1.load envQueryFails).1 = Except.error ErrorKind.TaskCmdError ∧
    (cleanCache1.load envQueryFails).2.1 = { cleanCache1 with cache := [] } ∧
    ∀ env₁ : Env, (cleanCache1.write env₁).2.1 = cleanCache1 :=
  load_query_failure_clears cleanCache1 envQueryFails ErrorKind.TaskCmdError (by decide) rfl

/-- **C6** — Refresh performs Write first and then Load: if Write fails, its
error is surfaced unchanged, the state and trace are Write's (in particular
no query is ever issued, so Load was never attempted), and if Write succeeds,
Refresh's result and final state are exactly those of Load on the
post-Write cache, with the traces concatenated. -/
theorem refresh_is_write_then_load (c : TaskCache) (env : Env) :
    (∀ e : ErrorKind, (c.write env).1 = Except.error e →
      c.refresh env = (Except.error e, (c.write env).2.1, (c.write env).2.2) ∧
      ∀ f : String, ExtCall.queryCall f ∉ (c.refresh env).2.2) ∧
    ((c.write env).1 = Except.ok () →
      (c.refresh env).1 = (((c.write env).2.1).load env).1 ∧
      (c.refresh env).2.1 = (((c.write env).2.1).load env).2.1 ∧
      (c.refresh env).2.2 = (c.write env).2.2 ++ (((c.write env).2.1).load env).2.2) := by
  have hnq := write_trace_no_query c env
  rcases hw : c.write env with ⟨r, c₁, tr⟩
  rw [hw] at hnq
  cases r with
  | error e =>
    refine ⟨fun e₁ he₁ => ?_, fun hok => by simp at hok⟩
    have : e = e₁ := by simpa using he₁
    subst this
    constructor
    · simp [TaskCache.refresh, hw]
    · intro f
      simp only [TaskCache.refresh, hw]
      exact hnq f
  | ok u =>
    cases u
    refine ⟨fun e₁ he₁ => by simp at he₁, fun _ => ?_⟩
    simp only [TaskCache.refresh, hw]
    rcases hl : c₁.load env with ⟨r₁, c₂, tr₁⟩
    simp [hl]

/-- Witness for `refresh_is_write_then_load`: on the concrete dirty cache
with a failing save primitive, Refresh surfaces the Write failure, leaves the
cache unchanged, and issues no query. -/
theorem refresh_is_write_then_load_witness :
    dirtyCache1.refresh envSaveFails
      = (Except.error ErrorKind.TaskCmdError, dirtyCache1, [ExtCall.saveCall [t1]]) ∧
    ∀ f : String, ExtCall.queryCall f ∉ (dirtyCache1.refresh envSaveFails).2.2 :=
  (refresh_is_write_then_load dirtyCache1 envSaveFails).1 ErrorKind.TaskCmdError rfl

theorem keyInv_new (ig : List TaskStatus) : keyInv (TaskCache.new ig) := by
  intro p hp
  simp [TaskCache.new] at hp

theorem keyInv_set {c : TaskCache} (h : keyInv c) (t : Task) : keyInv (c.set t) := by
  intro p hp
  simp only [TaskCache.set] at hp
  rcases mem_extendEntries hp with h₁ | h₁
  · exact h p h₁
  · simp only [List.mem_singleton] at h₁
    subst h₁
    rfl

theorem keyInv_reset {c : TaskCache} (_h : keyInv c) : keyInv c.reset := by
  intro p hp
  simp [TaskCache.reset] at hp

theorem keyInv_load {c : TaskCache} (env : Env) (h : keyInv c) :
    keyInv (c.load env).2.1 := by
  unfold TaskCache.load
  by_cases hd : anyDirty c = true
  · simpa [hd] using h
  · simp only [Bool.not_eq_true] at hd
    cases hq : env.query (generate_query c.ignore) with
    | error e =>
      simp only [hd, hq]
      intro p hp
      simp at hp
    | ok tasks =>
      simp only [hd, hq]
      exact keyInvList_extendEntries (fun p hp => by simp at hp)
        (keyInvList_map_task_to_entry tasks)

theorem keyInv_write {c : TaskCache} (env : Env) (h : keyInv c) :
    keyInv (c.write env).2.1 := by
  rw [show (c.write env).2.1 = c from write_cache_unchanged c env]
  exact h

theorem keyInv_refresh {c : TaskCache} (env : Env) (h : keyInv c) :
    keyInv (c.refresh env).2.1 := by
  have hw := write_cache_unchanged c env
  rcases hwe : c.write env with ⟨r, c₁, tr⟩
  rw [hwe] at hw
  simp only at hw
  cases r with
  | error e => simpa [TaskCache.refresh, hwe, hw] using h
  | ok u =>
    cases u
    have hl := keyInv_load env h
    rcases hle : c.load env with ⟨r₁, c₂, tr₁⟩
    rw [hle] at hl
    simpa [TaskCache.refresh, hwe, hw, hle] using hl

/-- **C9** — Every operation of `TaskCache` (`new`, `load`, `set`, `reset`,
`write`, `refresh`) preserves the invariant that each identifier used as a
map key equals the identifier of the Task stored at that key. (Mutable
handles in this embedding never change the task's identifier, matching the
claim's assumption.) -/
theorem cache_ops_preserve_key_invariant (c : TaskCache) (env : Env) (t : Task)
    (ig : List TaskStatus) (h : keyInv c) :
    keyInv (TaskCache.new ig) ∧ keyInv (c.set t) ∧ keyInv c.reset ∧
    keyInv (c.load env).2.1 ∧ keyInv (c.write env).2.1 ∧ keyInv (c.refresh env).2.1 :=
  ⟨keyInv_new ig, keyInv_set h t, keyInv_reset h,
    keyInv_load env h, keyInv_write env h, keyInv_refresh env h⟩

/-- Witness for `cache_ops_preserve_key_invariant` at a concrete cache. -/
theorem cache_ops_preserve_key_invariant_witness :
    keyInv (cleanCache1.set t1) ∧ keyInv (cleanCache1.load envAllOk).2.1 :=
  let h := cache_ops_preserve_key_invariant cleanCache1 envAllOk t1 []
    (by intro p hp; simp [cleanCache1, t1] at hp; simp [hp])
  ⟨h.2.1, h.2.2.2.1⟩

/-- **C7** — Successfully obtaining a mutable handle through a `TaskCell`
(possible exactly when the entry is unborrowed) immediately marks the entry
Dirty; releasing the handle without changing any field leaves it Dirty with
the task intact, and once such a released entry sits in a cache, its task is
in the batch the next Write persists. -/
theorem borrow_mut_marks_dirty (e : Entry) (k : Nat) (c : TaskCache)
    (hf : e.flag = BorrowFlag.free) :
    (TaskCell.borrow_mut e).1 = some e.task ∧
    ((TaskCell.borrow_mut e).2).state = MutationState.Dirty ∧
    (TaskCell.releaseMut (TaskCell.borrow_mut e).2).state = MutationState.Dirty ∧
    (TaskCell.releaseMut (TaskCell.borrow_mut e).2).task = e.task ∧
    ((k, TaskCell.releaseMut (TaskCell.borrow_mut e).2) ∈ c.cache →
      e.task ∈ dirtyTasks c) := by
  refine ⟨by simp [TaskCell.borrow_mut, hf], by simp [TaskCell.borrow_mut, hf],
    by simp [TaskCell.borrow_mut, hf, TaskCell.releaseMut],
    by simp [TaskCell.borrow_mut, hf, TaskCell.releaseMut], ?_⟩
  intro hmem
  simp only [TaskCell.borrow_mut, hf, TaskCell.releaseMut] at hmem
  simp only [dirtyTasks, List.mem_map]
  exact ⟨(k, { e with state := MutationState.Dirty, flag := BorrowFlag.free }),
    List.mem_filter.mpr ⟨hmem, by simp⟩, rfl⟩

/-- Witness for `borrow_mut_marks_dirty`: taking and releasing a mutable
handle on the concrete clean entry for `t1` puts `t1` in the batch of the
next Write of `dirtyCache1`, which holds exactly the released entry. -/
theorem borrow_mut_marks_dirty_witness :
    t1 ∈ dirtyTasks dirtyCache1 :=
  (borrow_mut_marks_dirty ⟨t1, MutationState.Clean, BorrowFlag.free⟩ 1 dirtyCache1
    rfl).2.2.2.2 (by decide)

/-- **C8** — While a mutable handle obtained through one `TaskCell` is held
and not released, obtaining any handle (read-only or mutable) on the same
entry through another cell yields `none` — an absent value, not an error and
not a panic (both operations are total and return an `Option`). -/
theorem borrow_exclusivity (e : Entry) (hf : e.flag = BorrowFlag.free) :
    (TaskCell.borrow_mut e).1 = some e.task ∧
    (TaskCell.borrow (TaskCell.borrow_mut e).2).1 = none ∧
    (TaskCell.borrow_mut (TaskCell.borrow_mut e).2).1 = none := by
  simp [TaskCell.borrow_mut, TaskCell.borrow, hf]

/-- Witness for `borrow_exclusivity` at the concrete clean entry for `t1`. -/
theorem borrow_exclusivity_witness :
    (TaskCell.borrow_mut ⟨t1, MutationState.Clean, BorrowFlag.free⟩).1 = some t1 ∧
    (TaskCell.borrow
      (TaskCell.borrow_mut ⟨t1, MutationState.Clean, BorrowFlag.free⟩).2).1 = none ∧
    (TaskCell.borrow_mut
      (TaskCell.borrow_mut ⟨t1, MutationState.Clean, BorrowFlag.free⟩).2).1 = none :=
  borrow_exclusivity ⟨t1, MutationState.Clean, BorrowFlag.free⟩ rfl

/-- **C10** — The read-only access operations leave the cache unchanged:
`iter` and `get_ptr` and the ignore accessor return the cache as it was
(and yield exactly the stored entries, the looked-up entry, and the
configured ignore list), and a `TaskCell` read-only borrow never changes the
entry's task or its mutation state (only the runtime borrow flag). -/
theorem read_ops_frame (c : TaskCache) (u : Nat) (e : Entry) :
    (TaskCache.iter c).2 = c ∧ (TaskCache.iter c).1 = c.cache ∧
    (TaskCache.get_ptr c u).2 = c ∧
    (TaskCache.ignoreAccessor c).2 = c ∧
    (TaskCache.ignoreAccessor c).1 = c.ignore ∧
    ((TaskCell.borrow e).2).task = e.task ∧
    ((TaskCell.borrow e).2).state = e.state := by
  refine ⟨rfl, rfl, rfl, rfl, rfl, ?_, ?_⟩ <;>
    cases hf : e.flag <;> simp [TaskCell.borrow, hf]

end TaskHookrs
